import Mathlib

/-!
Verification of the rule-based Australian address parser and confidence
scorer of `address_cleaner` (`parsing.py`, `scoring.py`).

Strings are modelled as lists of characters (`Str`); the Python string
operations used by the source (uppercasing, whitespace splitting, digit
tests, slicing, title-casing) are given faithful ASCII-level definitions
below.  Machine integers are modelled as `Int`/`Nat` (Python integers are
unbounded, so no wrap-around modelling is needed), and the floating-point
match/confidence scores, which the source only ever compares against
constant thresholds, are modelled as rationals.
-/

/-- Python `str` modelled as a list of characters. -/
abbrev Str := List Char

/-- Shorthand turning a Lean string literal into the `Str` model. -/
def S (s : String) : Str := s.data

/-- ASCII lowercase letter test (`[a-z]`). -/
def lowerCh (c : Char) : Bool := decide (97 ≤ c.toNat ∧ c.toNat ≤ 122)

/-- ASCII uppercase letter test (`[A-Z]`). -/
def upperCh (c : Char) : Bool := decide (65 ≤ c.toNat ∧ c.toNat ≤ 90)

/-- ASCII letter test, Python `str.isalpha()` on ASCII data. -/
def alphaCh (c : Char) : Bool := upperCh c || lowerCh c

/-- ASCII digit test (`\d`, `str.isdigit()` per character). -/
def digitCh (c : Char) : Bool := decide (48 ≤ c.toNat ∧ c.toNat ≤ 57)

/-- Python whitespace (`\s`, `str.split()`), restricted to the ASCII
whitespace characters. -/
def wsCh (c : Char) : Bool := c == ' ' || c == '\t' || c == '\n' || c == '\r'

/-- Python `\w` word characters (letters, digits, underscore). -/
def wordCh (c : Char) : Bool := alphaCh c || digitCh c || c == '_'

/-- Uppercase one ASCII character, Python `str.upper()` per character. -/
def upCh (c : Char) : Char :=
  if lowerCh c then Char.ofNat (c.toNat - 32) else c

/-- Lowercase one ASCII character, Python `str.lower()` per character. -/
def lowCh (c : Char) : Char :=
  if upperCh c then Char.ofNat (c.toNat + 32) else c

/-- Python `str.upper()` (ASCII letters, as exercised by the source). -/
def strUpper (s : Str) : Str := s.map upCh

/-- Python `str.startswith(p)`. -/
def strStarts (s p : Str) : Bool := List.isPrefixOf p s

/-- Python substring containment `needle in hay`. -/
def containsSub (hay needle : Str) : Bool :=
  if List.isPrefixOf needle hay then true
  else match hay with
    | [] => false
    | _ :: t => containsSub t needle

/-- Accumulating worker for `splitWs`; `cur` is the reversed current word. -/
def splitWsAux (cur : Str) : Str → List Str
  | [] => if cur.isEmpty then [] else [cur.reverse]
  | c :: rest =>
    if wsCh c then
      if cur.isEmpty then splitWsAux [] rest
      else cur.reverse :: splitWsAux [] rest
    else splitWsAux (c :: cur) rest

/-- Python `str.split()` with no argument: split on whitespace runs,
dropping empty pieces. -/
def splitWs (s : Str) : List Str := splitWsAux [] s

/-- Python `' '.join(parts)`. -/
def joinSp : List Str → Str
  | [] => []
  | [w] => w
  | w :: rest => w ++ ' ' :: joinSp rest

/-- Python `str.split(sep)` where every character satisfying `p` is a
separator occurrence (all separators used by the source are single
characters); empty pieces are kept, as in Python. -/
def splitOnPred (p : Char → Bool) : Str → List Str
  | [] => [[]]
  | c :: rest =>
    if p c then [] :: splitOnPred p rest
    else match splitOnPred p rest with
      | h :: t => (c :: h) :: t
      | [] => [[c]]

/-- Python `str.isdigit()` (false on the empty string). -/
def isdigitStr (s : Str) : Bool := !s.isEmpty && s.all digitCh

/-- Python `int(s)` on a digit string. -/
def digitsVal (s : Str) : Nat := s.foldl (fun a c => 10 * a + (c.toNat - 48)) 0

/-- Python `str.zfill(w)`: left-pad with `'0'` up to width `w`. -/
def zfill (w : Nat) (s : Str) : Str := List.replicate (w - s.length) '0' ++ s

/-- One step of Python `str.title()`: `prevAlpha` records whether the
previous character was cased. -/
def titleAux (prevAlpha : Bool) : Str → Str
  | [] => []
  | c :: rest =>
    if alphaCh c then
      (if prevAlpha then lowCh c else upCh c) :: titleAux true rest
    else c :: titleAux false rest

/-- Python `str.title()` restricted to ASCII letters. -/
def titleStr (s : Str) : Str := titleAux false s


/-- Regex `^\d{4}$` (the default postcode pattern, also used by the
international check in `_is_international`). -/
def fourDigits (t : Str) : Bool := t.length == 4 && t.all digitCh

/-- Regex `^\d+[A-Z]?$` used on number tokens in `_extract_numbers`. -/
def numAlphaTok (t : Str) : Bool :=
  !(t.takeWhile digitCh).isEmpty &&
    (match t.dropWhile digitCh with
     | [] => true
     | [c] => upperCh c
     | _ => false)

/-- Attempt of `re.search(lit + "\s+(\d+[A-Z]?)", s)` anchored at the start
of `s`; returns the captured group. -/
def matchTagAt (lit : Str) (s : Str) : Option Str :=
  if List.isPrefixOf lit s then
    let r0 := s.drop lit.length
    let r1 := r0.dropWhile wsCh
    let d := r1.takeWhile digitCh
    if !(r0.takeWhile wsCh).isEmpty && !d.isEmpty then
      match r1.dropWhile digitCh with
      | c :: _ => if upperCh c then some (d ++ [c]) else some d
      | [] => some d
    else none
  else none

/-- Python `re.search(lit + "\s+(\d+[A-Z]?)", s)`: leftmost match wins. -/
def searchTag (lit : Str) : Str → Option Str
  | [] => none
  | c :: rest =>
    match matchTagAt lit (c :: rest) with
    | some g => some g
    | none => searchTag lit rest

/-- First-match association-list lookup, modelling Python `dict.get` for the
configuration-derived lookup tables (whose keys are distinct). -/
def lookupA {β : Type} : List (Str × β) → Str → Option β
  | [], _ => none
  | (k, v) :: rest, q => if k = q then some v else lookupA rest q

/-- Configuration consumed by `AddressParser`, holding exactly the values
the parser reads from the nested config dictionary.  The fuzzy similarity
scorer (`rapidfuzz.fuzz.ratio` in the source) is carried as an opaque
function on a 0-100 rational scale; the postcode validation regex is
carried as a predicate; separators are single characters (the defaults
are). -/
structure ParserConfig where
  street_type_map : List (Str × Str)
  canonical_street_types : List Str
  fuzzy_enabled : Bool
  fuzzy_min_score : ℚ
  fuzzy_score : Str → Str → ℚ
  unit_prefixes : List Str
  po_box_prefixes : List Str
  rmb_prefixes : List Str
  street_number_range_separators : List Char
  strip_street_number_alpha_suffix : Bool
  intl_enabled : Bool
  country_tokens : List Str
  require_four_digit_postcode : Bool
  valid_states : List Str
  state_map : List (Str × Str)
  suburb_misspellings : List (Str × Str)
  postcode_pattern : Str → Bool
  postcode_ranges : List (Str × List (Int × Int))
  street_number_min : Int
  street_number_max : Int

/-- Result shape of `_parse_street_address`. -/
structure StreetComponents where
  unit_number : Str := []
  street_number : Str := []
  street_name : Str := []
  street_type : Str := []
  unparsed_components : Str := []
  parsing_notes : List Str := []
deriving DecidableEq, Repr

/-- Result shape of `parse_address` (the `result` dictionary). -/
structure AddressComponents where
  unit_number : Str := []
  street_number : Str := []
  street_name : Str := []
  street_type : Str := []
  suburb : Str := []
  state : Str := []
  postcode : Str := []
  unparsed_components : Str := []
  inconsistency_flags : List Str := []
  parsing_notes : List Str := []
deriving DecidableEq, Repr

/-- `AddressParser._clean_text`: uppercase, strip, collapse whitespace runs
to single spaces (equivalently, rejoin the whitespace-split words). -/
def clean_text (text : Str) : Str := joinSp (splitWs (strUpper text))

/-- `AddressParser._is_international`: country-token substring check on the
concatenated fields, then the four-digit-postcode policy, then the
state-alias check (where a missing or empty alias target reads as falsy,
as `if not normalized_state` does). -/
def is_international (cfg : ParserConfig) (street_address suburb state postcode : Str) : Bool :=
  if !cfg.intl_enabled then false
  else if cfg.country_tokens.any (fun ct =>
      containsSub (strUpper (street_address ++ ' ' :: suburb ++ ' ' :: state ++ ' ' :: postcode))
        (strUpper ct)) then true
  else if cfg.require_four_digit_postcode && !postcode.isEmpty && !fourDigits postcode then true
  else if !state.isEmpty && !(decide (state ∈ cfg.valid_states)) &&
      ((lookupA cfg.state_map (strUpper state)).getD []).isEmpty then true
  else false

/-- `AddressParser._is_po_box`. -/
def is_po_box (cfg : ParserConfig) (street_address : Str) : Bool :=
  cfg.po_box_prefixes.any (fun p => strStarts street_address (strUpper p))

/-- `AddressParser._is_rmb`. -/
def is_rmb (cfg : ParserConfig) (street_address : Str) : Bool :=
  cfg.rmb_prefixes.any (fun p => strStarts street_address (strUpper p))

/-- `AddressParser._normalize_suburb`. -/
def normalize_suburb (cfg : ParserConfig) (suburb : Str) : Str :=
  if suburb.isEmpty then []
  else match lookupA cfg.suburb_misspellings (strUpper suburb) with
    | some corr => titleStr corr
    | none => titleStr suburb

/-- `AddressParser._normalize_state`. -/
def normalize_state (cfg : ParserConfig) (state : Str) : Str :=
  if state.isEmpty then []
  else match lookupA cfg.state_map (strUpper state) with
    | some v => v
    | none => state

/-- `AddressParser._normalize_postcode`. -/
def normalize_postcode (postcode : Str) : Str :=
  if postcode.isEmpty then []
  else
    let d := postcode.filter digitCh
    if d.length = 4 then d
    else if d.length < 4 then zfill 4 d
    else d.take 4

/-- `AddressParser._check_consistency` over the normalized components. -/
def check_consistency (cfg : ParserConfig) (components : AddressComponents) : List Str :=
  (if !components.postcode.isEmpty && !cfg.postcode_pattern components.postcode then
    [S "INVALID_POSTCODE_FORMAT"] else [])
  ++
  (if !components.state.isEmpty && !components.postcode.isEmpty then
    match lookupA cfg.postcode_ranges components.state with
    | some ranges =>
      if !ranges.isEmpty then
        let postcode_int : Int :=
          if isdigitStr components.postcode then (digitsVal components.postcode : Int) else 0
        if ranges.any (fun r => decide (r.1 ≤ postcode_int ∧ postcode_int ≤ r.2)) then []
        else [S "POSTCODE_STATE_MISMATCH"]
      else []
    | none => []
  else [])
  ++
  (if !components.street_number.isEmpty && isdigitStr components.street_number then
    if decide ((digitsVal components.street_number : Int) < cfg.street_number_min) ||
       decide ((digitsVal components.street_number : Int) > cfg.street_number_max) then
      [S "INVALID_STREET_NUMBER"]
    else []
  else [])

/-- Backward exact scan of `_extract_street_type`: the rightmost token that
hits the street-type map wins (the Python loop walks indices from the end
and returns on the first hit). -/
def find_exact (cfg : ParserConfig) : Nat → List Str → Option (Str × Nat)
  | _, [] => none
  | i, t :: rest =>
    match find_exact cfg (i + 1) rest with
    | some r => some r
    | none =>
      match lookupA cfg.street_type_map t with
      | some lbl => some (lbl, i)
      | none => none

/-- `rapidfuzz.process.extractOne(token, choices, scorer=fuzz.ratio)`:
best-scoring choice, earliest on ties, `none` on an empty choice list. -/
def extract_one (score_fn : Str → Str → ℚ) (query : Str) (choices : List Str) :
    Option (Str × ℚ) :=
  choices.foldl (fun best c =>
    match best with
    | none => some (c, score_fn query c)
    | some (b, sb) => if sb < score_fn query c then some (c, score_fn query c) else some (b, sb))
    none

/-- One iteration of the fuzzy loop of `_extract_street_type` at token
index `i`: accept the extracted candidate only at or above the configured
minimum score. -/
def try_fuzzy_at (cfg : ParserConfig) (tokens : List Str) (i : Nat) : Option (Str × Nat) :=
  match tokens.get? i with
  | some t =>
    match extract_one cfg.fuzzy_score t cfg.canonical_street_types with
    | some (lbl, sc) => if cfg.fuzzy_min_score ≤ sc then some (lbl, i) else none
    | none => none
  | none => none

/-- The fuzzy loop of `_extract_street_type`:
`for i in range(len(tokens) - 1, max(-1, len(tokens) - 3), -1)` visits at
most the last two token positions, last position first. -/
def find_fuzzy (cfg : ParserConfig) (tokens : List Str) : Option (Str × Nat) :=
  if tokens.length = 0 then none
  else
    match try_fuzzy_at cfg tokens (tokens.length - 1) with
    | some r => some r
    | none =>
      if 2 ≤ tokens.length then try_fuzzy_at cfg tokens (tokens.length - 2)
      else none

/-- `AddressParser._extract_street_type`; the Python `-1` index sentinel is
modelled as `none`. -/
def extract_street_type (cfg : ParserConfig) (tokens : List Str) : Str × Option Nat :=
  match find_exact cfg 0 tokens with
  | some (lbl, i) => (lbl, some i)
  | none =>
    if cfg.fuzzy_enabled then
      match find_fuzzy cfg tokens with
      | some (lbl, i) => (lbl, some i)
      | none => ([], none)
    else ([], none)

/-- `AddressParser._extract_numeric`: with the alpha-suffix-stripping
policy on, `re.match(r'^(\d+)', token)` keeps the leading digits when the
token starts with one, else the token passes through unchanged. -/
def extract_numeric (cfg : ParserConfig) (token : Str) : Str :=
  if cfg.strip_street_number_alpha_suffix then
    if !(token.takeWhile digitCh).isEmpty then token.takeWhile digitCh
    else token
  else token

/-- Separator test `'/' in token or '\\' in token` of `_extract_numbers`. -/
def slashCh (c : Char) : Bool := c == '/' || c == '\\'

/-- The scanning loop of `_extract_numbers` over tokens `i, i+1, ...`;
`unit` and `e` carry the `unit_number` and `end_index` accumulated by
earlier unit-prefix iterations (`end_index = -1` is modelled as `none`). -/
def scan_numbers (cfg : ParserConfig) (unit : Str) (e : Option Nat) (i : Nat) :
    List Str → Str × Str × Option Nat
  | [] => (unit, [], e)
  | token :: rest =>
    if token ∈ cfg.unit_prefixes.map strUpper ∧ rest ≠ [] then
      match rest with
      | t2 :: rest2 => scan_numbers cfg (extract_numeric cfg t2) (some (i + 1)) (i + 2) rest2
      | [] => (unit, [], e)
    else if token.any slashCh ∧ (splitOnPred slashCh token).length = 2 then
      (extract_numeric cfg ((splitOnPred slashCh token).headD []),
       extract_numeric cfg ((splitOnPred slashCh token).getLastD []), some i)
    else if numAlphaTok token then
      match rest with
      | t2 :: _ =>
        if numAlphaTok t2 then (extract_numeric cfg token, extract_numeric cfg t2, some (i + 1))
        else (unit, extract_numeric cfg token, some i)
      | [] => (unit, extract_numeric cfg token, some i)
    else scan_numbers cfg unit e (i + 1) rest

/-- Loop body of `AddressParser._handle_range` over the configured
separators: on the first separator present in the number with a purely
numeric part before it, return that left part. -/
def handle_range_go (number : Str) : List Char → Str
  | [] => number
  | sep :: more =>
    if sep ∈ number then
      if 2 ≤ (splitOnPred (· == sep) number).length ∧
          isdigitStr ((splitOnPred (· == sep) number).headD []) then
        (splitOnPred (· == sep) number).headD []
      else handle_range_go number more
    else handle_range_go number more

/-- `AddressParser._handle_range`. -/
def handle_range (cfg : ParserConfig) (number : Str) : Str :=
  handle_range_go number cfg.street_number_range_separators

/-- `AddressParser._extract_numbers`: the scan loop followed by the
range-handling step, which fires on a literal `'-'` in the extracted
street number. -/
def extract_numbers (cfg : ParserConfig) (tokens : List Str) : Str × Str × Option Nat :=
  let r := scan_numbers cfg [] none 0 tokens
  if ¬r.2.1.isEmpty ∧ '-' ∈ r.2.1 then (r.1, handle_range cfg r.2.1, r.2.2)
  else r

/-- Worker for one `re.sub(r'\b' + lit + r'([a-z])', ...)` pass of
`_normalize_street_name`: at a word boundary, a literal `lit` followed by
a lowercase letter has that letter uppercased; scanning resumes after the
match, `prevWord` tracking whether the previous character was a word
character. -/
def fixCapAux (lit : Str) : Nat → Bool → Str → Str
  | 0, _, s => s
  | _ + 1, _, [] => []
  | fuel + 1, prevWord, c :: rest =>
    if !prevWord && List.isPrefixOf lit (c :: rest) &&
        (match (c :: rest).drop lit.length with | d :: _ => lowerCh d | [] => false) then
      lit ++ upCh (((c :: rest).drop lit.length).headD ' ') ::
        fixCapAux lit fuel true ((c :: rest).drop (lit.length + 1))
    else c :: fixCapAux lit fuel (wordCh c) rest

/-- One `re.sub` pass over the whole string; the fuel argument, set to the
string's length, only bounds the recursion (every step consumes at least
one character), so it never runs out before the string does. -/
def fixCap (lit : Str) (s : Str) : Str := fixCapAux lit s.length false s

/-- `AddressParser._normalize_street_name`: title case, then the `Mc`,
`Mac` and `O'` capitalization fix-ups, in the source's order. -/
def normalize_street_name (name : Str) : Str :=
  if name.isEmpty then []
  else fixCap (S "O'") (fixCap (S "Mac") (fixCap (S "Mc") (titleStr name)))

/-- `AddressParser._parse_street_address`. -/
def parse_street_address (cfg : ParserConfig) (street_address : Str) : StreetComponents :=
  if street_address.isEmpty then {}
  else
    let tokens := splitWs street_address
    let tsi := extract_street_type cfg tokens
    let tokens2 := match tsi.2 with
      | some idx => tokens.take idx
      | none => tokens
    let nums := extract_numbers cfg tokens2
    let sname := match nums.2.2 with
      | some e => if e < tokens2.length then normalize_street_name (joinSp (tokens2.drop (e + 1)))
                  else []
      | none => if 0 < tokens2.length then normalize_street_name (joinSp tokens2) else []
    { unit_number := nums.1, street_number := nums.2.1, street_name := sname,
      street_type := tsi.1,
      unparsed_components := if nums.2.1.isEmpty ∧ sname.isEmpty then street_address else [],
      parsing_notes := if nums.2.1.isEmpty ∧ sname.isEmpty then [S "UNABLE_TO_PARSE"] else [] }

/-- `AddressParser._parse_po_box`. -/
def parse_po_box (cfg : ParserConfig) (street_address suburb state postcode : Str) :
    AddressComponents :=
  let base : AddressComponents :=
    { street_type := S "PO Box", suburb := normalize_suburb cfg suburb,
      state := normalize_state cfg state, postcode := normalize_postcode postcode,
      parsing_notes := [S "PO_BOX"] }
  match searchTag (S "BOX") street_address with
  | some g => { base with street_number := g }
  | none => base

/-- `AddressParser._parse_rmb`. -/
def parse_rmb (cfg : ParserConfig) (street_address suburb state postcode : Str) :
    AddressComponents :=
  let base : AddressComponents :=
    { street_type := S "RMB", suburb := normalize_suburb cfg suburb,
      state := normalize_state cfg state, postcode := normalize_postcode postcode,
      parsing_notes := [S "RMB"] }
  match searchTag (S "RMB") street_address with
  | some g => { base with street_number := g }
  | none => base

/-- `AddressParser.parse_address`: clean every field, short-circuit on the
International / PO Box / RMB special forms (in that order), otherwise run
street extraction, locality normalization and the consistency check. -/
def parse_address (cfg : ParserConfig) (street_address suburb state postcode : Str) :
    AddressComponents :=
  if is_international cfg (clean_text street_address) (clean_text suburb) (clean_text state)
      (clean_text postcode) then
    { parsing_notes := [S "INTERNATIONAL_ADDRESS"] }
  else if is_po_box cfg (clean_text street_address) then
    parse_po_box cfg (clean_text street_address) (clean_text suburb) (clean_text state)
      (clean_text postcode)
  else if is_rmb cfg (clean_text street_address) then
    parse_rmb cfg (clean_text street_address) (clean_text suburb) (clean_text state)
      (clean_text postcode)
  else
    let sc := parse_street_address cfg (clean_text street_address)
    let comps : AddressComponents :=
      { unit_number := sc.unit_number, street_number := sc.street_number,
        street_name := sc.street_name, street_type := sc.street_type,
        suburb := normalize_suburb cfg (clean_text suburb),
        state := normalize_state cfg (clean_text state),
        postcode := normalize_postcode (clean_text postcode),
        unparsed_components := sc.unparsed_components,
        parsing_notes := sc.parsing_notes }
    { comps with inconsistency_flags := check_consistency cfg comps }

/-- Scoring configuration of `ConfidenceScorer`: the base score and the
configurable entries of the penalty table (`self.penalties.get(...)`
reads; the per-flag and per-correction fallback penalties are hard-coded
in the source and stay literals below). -/
structure ScoringConfig where
  base_score : Int
  international_address : Int
  invalid_address : Int
  ambiguous_street_number : Int
  ambiguous_unit_number : Int
  conflicting_indicators : Int
  unparsed_components_present : Int
  no_gnaf_match : Int
  approximate_gnaf_match : Int
  suburb_corrected : Int
  state_corrected : Int
  postcode_corrected : Int
  fuzzy_street_type : Int
  fuzzy_suburb : Int

/-- Per-note penalty table of `_penalty_for_parsing_notes` (unknown notes
cost 0). -/
def note_penalty (cfg : ScoringConfig) (note : Str) : Int :=
  if note = S "INTERNATIONAL_ADDRESS" then cfg.international_address
  else if note = S "PO_BOX" then 0
  else if note = S "RMB" then 0
  else if note = S "UNABLE_TO_PARSE" then cfg.invalid_address
  else if note = S "AMBIGUOUS_STREET_NUMBER" then cfg.ambiguous_street_number
  else if note = S "AMBIGUOUS_UNIT_NUMBER" then cfg.ambiguous_unit_number
  else if note = S "CONFLICTING_INDICATORS" then cfg.conflicting_indicators
  else 0

/-- `ConfidenceScorer._penalty_for_parsing_notes`. -/
def penalty_for_parsing_notes (cfg : ScoringConfig) (parsing_notes : List Str) : Int :=
  parsing_notes.foldl (fun acc n => acc + note_penalty cfg n) 0

/-- Per-flag penalty table of `_penalty_for_inconsistencies` (all values
hard-coded in the source; unknown flags cost 5). -/
def flag_penalty (flag : Str) : Int :=
  if flag = S "INVALID_POSTCODE_FORMAT" then 15
  else if flag = S "POSTCODE_STATE_MISMATCH" then 12
  else if flag = S "INVALID_STREET_NUMBER" then 10
  else if flag = S "SUBURB_POSTCODE_MISMATCH" then 12
  else 5

/-- `ConfidenceScorer._penalty_for_inconsistencies`. -/
def penalty_for_inconsistencies (inconsistency_flags : List Str) : Int :=
  inconsistency_flags.foldl (fun acc f => acc + flag_penalty f) 0

/-- `ConfidenceScorer._penalty_for_gnaf`. -/
def penalty_for_gnaf (cfg : ScoringConfig) (gnaf_flags : List Str) (gnaf_match_score : ℚ) :
    Int :=
  (if S "NO_GNAF_MATCH" ∈ gnaf_flags then cfg.no_gnaf_match
   else if S "GNAF_APPROXIMATE_MATCH" ∈ gnaf_flags then
     cfg.approximate_gnaf_match +
       (if gnaf_match_score < 8/10 then 5 else if gnaf_match_score < 9/10 then 3 else 0)
   else 0)
  + (if S "GNAF_DISABLED" ∈ gnaf_flags then 5 else 0)
  + (if S "GNAF_CONNECTION_ERROR" ∈ gnaf_flags ∨ S "GNAF_QUERY_ERROR" ∈ gnaf_flags then 5
     else 0)

/-- Per-correction penalty table of `_penalty_for_corrections` (unlisted
correction kinds cost 3). -/
def correction_penalty (cfg : ScoringConfig) (correction : Str) : Int :=
  if correction = S "SUBURB_CORRECTED" then cfg.suburb_corrected
  else if correction = S "STATE_CORRECTED" then cfg.state_corrected
  else if correction = S "POSTCODE_CORRECTED" then cfg.postcode_corrected
  else if correction = S "STREET_TYPE_FUZZY_MATCH" then cfg.fuzzy_street_type
  else if correction = S "SUBURB_FUZZY_MATCH" then cfg.fuzzy_suburb
  else 3

/-- `ConfidenceScorer._penalty_for_corrections`. -/
def penalty_for_corrections (cfg : ScoringConfig) (corrections_applied : List Str) : Int :=
  corrections_applied.foldl (fun acc c => acc + correction_penalty cfg c) 0

/-- `ConfidenceScorer._penalty_for_missing_components` (all amounts
hard-coded in the source). -/
def penalty_for_missing_components (components : AddressComponents) : Int :=
  (if components.street_name.isEmpty then 30 else 0)
  + (if components.suburb.isEmpty then 20 else 0)
  + (if components.state.isEmpty then 20 else 0)
  + (if components.postcode.isEmpty then 15 else 0)
  + (if components.street_number.isEmpty then 10 else 0)

/-- `ConfidenceScorer._adjust_for_ml_confidence`. -/
def adjust_for_ml_confidence (score : Int) (ml_confidence : ℚ) : Int :=
  if 95/100 ≤ ml_confidence then score + 2
  else if 90/100 ≤ ml_confidence then score + 1
  else if ml_confidence < 7/10 then score - 5
  else if ml_confidence < 8/10 then score - 3
  else score

/-- The optional ML adjustment step of `calculate_score` (`ml_confidence is
not None`). -/
def ml_step (score : Int) : Option ℚ → Int
  | some ml => adjust_for_ml_confidence score ml
  | none => score

/-- `ConfidenceScorer.calculate_score`: penalties subtracted from the base
score in the source's order, then the optional ML adjustment, then the
clamp `max(0, min(100, score))` (the final `int(...)` is the identity
here, all arithmetic being integral). -/
def calculate_score (cfg : ScoringConfig) (components : AddressComponents)
    (parsing_notes inconsistency_flags gnaf_flags : List Str) (gnaf_match_score : ℚ)
    (corrections_applied : List Str) (ml_confidence : Option ℚ) : Int :=
  max 0 (min 100 (ml_step
    (cfg.base_score
      - penalty_for_parsing_notes cfg parsing_notes
      - penalty_for_inconsistencies inconsistency_flags
      - penalty_for_gnaf cfg gnaf_flags gnaf_match_score
      - penalty_for_corrections cfg corrections_applied
      - (if !components.unparsed_components.isEmpty then cfg.unparsed_components_present else 0)
      - penalty_for_missing_components components)
    ml_confidence))

/-- `ConfidenceScorer.is_valid_address`. -/
def is_valid_address (components : AddressComponents) (score : Int) : Bool :=
  if score < 30 then false
  else if components.suburb.isEmpty || components.state.isEmpty then false
  else if components.street_type = S "PO Box" ∨ components.street_type = S "RMB" then true
  else if components.street_name.isEmpty then false
  else true

/-- Longest common subsequence length, for the similarity model below. -/
def lcsLen : Str → Str → Nat
  | [], _ => 0
  | _ :: _, [] => 0
  | a :: ra, b :: rb =>
    if a = b then 1 + lcsLen ra rb
    else max (lcsLen (a :: ra) rb) (lcsLen ra (b :: rb))
termination_by x y => x.length + y.length

/-- Modelled from the spec: the similarity scorer (`rapidfuzz.fuzz.ratio`,
an external library call) as the normalized indel ratio on the 0-100
scale the spec prescribes ("a direct string-similarity routine (e.g.,
edit-distance-ratio) ... the fixed similarity scale (0-100)"). -/
def indel_ratio (a b : Str) : ℚ :=
  if a.length + b.length = 0 then 100
  else 200 * (lcsLen a b : ℚ) / ((a.length : ℚ) + (b.length : ℚ))

/-- Modelled from the spec: the repository's default configuration file
(`config/default_config.yaml`, referenced by `core.load_config`) is not
among the provided sources, so the default lookup tables and thresholds
are reconstructed from the spec's descriptions and scenarios: street-type
canonical/alias/misspelling entries such as "St" → "Street"; "Unit" as a
unit prefix; "PO Box"/"RMB" special-form prefixes; the Australian state
codes with alias and postcode-range tables used by the spec's NSW/VIC
scenarios; fuzzy matching enabled at minimum score 85; range separator
`-`; alpha-suffix stripping on; four-digit-postcode policy on; street
number bounds 1..99999. -/
def default_parser_config : ParserConfig where
  street_type_map :=
    [(S "STREET", S "Street"), (S "ST", S "Street"),
     (S "ROAD", S "Road"), (S "RD", S "Road"),
     (S "AVENUE", S "Avenue"), (S "AVE", S "Avenue"),
     (S "DRIVE", S "Drive"), (S "DR", S "Drive"),
     (S "STRET", S "Street"), (S "RAOD", S "Road")]
  canonical_street_types := [S "STREET", S "ROAD", S "AVENUE", S "DRIVE"]
  fuzzy_enabled := true
  fuzzy_min_score := 85
  fuzzy_score := indel_ratio
  unit_prefixes := [S "Unit", S "Flat", S "Apt"]
  po_box_prefixes := [S "PO Box", S "GPO Box", S "Po Box"]
  rmb_prefixes := [S "RMB"]
  street_number_range_separators := ['-']
  strip_street_number_alpha_suffix := true
  intl_enabled := true
  country_tokens := [S "New Zealand", S "Germany", S "France", S "Japan"]
  require_four_digit_postcode := true
  valid_states := [S "NSW", S "VIC", S "QLD", S "SA", S "WA", S "TAS", S "NT", S "ACT"]
  state_map :=
    [(S "NSW", S "NSW"), (S "VIC", S "VIC"), (S "QLD", S "QLD"), (S "SA", S "SA"),
     (S "WA", S "WA"), (S "TAS", S "TAS"), (S "NT", S "NT"), (S "ACT", S "ACT"),
     (S "NEW SOUTH WALES", S "NSW"), (S "VICTORIA", S "VIC"), (S "QUEENSLAND", S "QLD"),
     (S "TASMANIA", S "TAS")]
  suburb_misspellings := [(S "SIDNEY", S "SYDNEY"), (S "MELBORNE", S "MELBOURNE")]
  postcode_pattern := fourDigits
  postcode_ranges :=
    [(S "NSW", [(1000, 2599), (2619, 2899), (2921, 2999)]),
     (S "VIC", [(3000, 3999), (8000, 8999)]),
     (S "QLD", [(4000, 4999), (9000, 9999)])]
  street_number_min := 1
  street_number_max := 99999

/-- Modelled from the spec: the default penalty table of §4.6 (base score
100; International 80, unable-to-parse 90, ambiguous street/unit number
7/5, conflicting indicators 10, unparsed remainder 12, no/approximate
G-NAF match 15/8, corrected suburb/state/postcode 10 each, fuzzy
street-type 5, fuzzy suburb 8). -/
def default_scoring_config : ScoringConfig where
  base_score := 100
  international_address := 80
  invalid_address := 90
  ambiguous_street_number := 7
  ambiguous_unit_number := 5
  conflicting_indicators := 10
  unparsed_components_present := 12
  no_gnaf_match := 15
  approximate_gnaf_match := 8
  suburb_corrected := 10
  state_corrected := 10
  postcode_corrected := 10
  fuzzy_street_type := 5
  fuzzy_suburb := 8



/-- The three special-form parsing notes of the special-form detector. -/
def special_form_tags : List Str := [S "INTERNATIONAL_ADDRESS", S "PO_BOX", S "RMB"]

/-- A configuration with an empty exact street-type map and a constant
similarity scorer, exercising the fuzzy retry path. -/
def fuzzy_probe_config : ParserConfig :=
  { default_parser_config with street_type_map := [], fuzzy_score := fun _ _ => 90 }

/-- The default configuration with alpha-suffix stripping switched off. -/
def nostrip_config : ParserConfig :=
  { default_parser_config with strip_street_number_alpha_suffix := false }


/-- Characters below the surrogate range round-trip through `Char.ofNat`. -/
theorem toNat_ofNat_valid (n : Nat) (h : n < 55296) : (Char.ofNat n).toNat = n := by
  have hv : n.isValidChar := Or.inl h
  simp only [Char.ofNat, hv, dite_true, Char.ofNatAux, Char.toNat, UInt32.toNat]
  simp

theorem char_eq_of_toNat_eq {c d : Char} (h : c.toNat = d.toNat) : c = d :=
  Char.ext (UInt32.ext h)

theorem toNat_upCh (c : Char) :
    (upCh c).toNat = if 97 ≤ c.toNat ∧ c.toNat ≤ 122 then c.toNat - 32 else c.toNat := by
  unfold upCh lowerCh
  by_cases h : 97 ≤ c.toNat ∧ c.toNat ≤ 122
  · rw [if_pos (by simpa using h), if_pos h]
    exact toNat_ofNat_valid _ (by omega)
  · rw [if_neg (by simpa using h), if_neg h]

theorem toNat_lowCh (c : Char) :
    (lowCh c).toNat = if 65 ≤ c.toNat ∧ c.toNat ≤ 90 then c.toNat + 32 else c.toNat := by
  unfold lowCh upperCh
  by_cases h : 65 ≤ c.toNat ∧ c.toNat ≤ 90
  · rw [if_pos (by simpa using h), if_pos h]
    exact toNat_ofNat_valid _ (by omega)
  · rw [if_neg (by simpa using h), if_neg h]

theorem upCh_upCh (c : Char) : upCh (upCh c) = upCh c := by
  apply char_eq_of_toNat_eq
  simp only [toNat_upCh]
  split_ifs <;> omega

theorem lowCh_lowCh (c : Char) : lowCh (lowCh c) = lowCh c := by
  apply char_eq_of_toNat_eq
  simp only [toNat_lowCh]
  split_ifs <;> omega

theorem upCh_lowCh (c : Char) : upCh (lowCh c) = upCh c := by
  apply char_eq_of_toNat_eq
  simp only [toNat_upCh, toNat_lowCh]
  split_ifs <;> omega

theorem alphaCh_upCh (c : Char) : alphaCh (upCh c) = alphaCh c := by
  rw [Bool.eq_iff_iff]
  simp only [alphaCh, upperCh, lowerCh, toNat_upCh, Bool.or_eq_true, decide_eq_true_eq]
  split_ifs <;> omega

theorem alphaCh_lowCh (c : Char) : alphaCh (lowCh c) = alphaCh c := by
  rw [Bool.eq_iff_iff]
  simp only [alphaCh, upperCh, lowerCh, toNat_lowCh, Bool.or_eq_true, decide_eq_true_eq]
  split_ifs <;> omega

theorem titleAux_idem (b : Bool) (s : Str) : titleAux b (titleAux b s) = titleAux b s := by
  induction s generalizing b with
  | nil => rfl
  | cons c rest ih =>
    by_cases h : alphaCh c = true
    · cases b with
      | false =>
        have h2 : alphaCh (upCh c) = true := by rw [alphaCh_upCh]; exact h
        simp only [titleAux, h, if_true, Bool.false_eq_true, if_false, h2, upCh_upCh]
        rw [ih true]
      | true =>
        have h2 : alphaCh (lowCh c) = true := by rw [alphaCh_lowCh]; exact h
        simp only [titleAux, h, if_true, h2, lowCh_lowCh]
        rw [ih true]
    · have h' : alphaCh c = false := by simpa using h
      simp only [titleAux, h', Bool.false_eq_true, if_false]
      rw [ih false]

theorem strUpper_titleAux (b : Bool) (s : Str) : strUpper (titleAux b s) = strUpper s := by
  induction s generalizing b with
  | nil => rfl
  | cons c rest ih =>
    by_cases h : alphaCh c = true
    · cases b with
      | true =>
        simp only [titleAux, h, if_true, strUpper, List.map, upCh_lowCh]
        rw [← strUpper, ← strUpper, ih]
      | false =>
        simp only [titleAux, h, if_true, Bool.false_eq_true, if_false, strUpper, List.map,
          upCh_upCh]
        rw [← strUpper, ← strUpper, ih]
    · have h' : alphaCh c = false := by simpa using h
      simp only [titleAux, h', Bool.false_eq_true, if_false, strUpper, List.map]
      rw [← strUpper, ← strUpper, ih]

theorem titleStr_idem (s : Str) : titleStr (titleStr s) = titleStr s := titleAux_idem false s

theorem strUpper_titleStr (s : Str) : strUpper (titleStr s) = strUpper s := strUpper_titleAux false s
theorem lookupA_mem {β : Type} (m : List (Str × β)) (q : Str) (v : β)
    (h : lookupA m q = some v) : (q, v) ∈ m := by
  induction m with
  | nil => simp [lookupA] at h
  | cons p rest ih =>
    unfold lookupA at h
    split_ifs at h with hk
    · obtain ⟨k, w⟩ := p
      simp only at hk
      injection h with hv
      subst hk hv
      exact List.mem_cons_self _ _
    · exact List.mem_cons_of_mem _ (ih h)

theorem length_titleAux (b : Bool) (s : Str) : (titleAux b s).length = s.length := by
  induction s generalizing b with
  | nil => rfl
  | cons c rest ih =>
    unfold titleAux
    split_ifs <;> simp [ih]

theorem titleStr_eq_nil_iff (s : Str) : titleStr s = [] ↔ s = [] := by
  constructor
  · intro h
    have := length_titleAux false s
    rw [titleStr] at h
    rw [h] at this
    exact List.length_eq_zero.mp this.symm
  · intro h; subst h; rfl

theorem splitOnPred_ne_nil (p : Char → Bool) (s : Str) : splitOnPred p s ≠ [] := by
  induction s with
  | nil => simp [splitOnPred]
  | cons c rest ih =>
    unfold splitOnPred
    split_ifs
    · simp
    · cases h : splitOnPred p rest <;> simp

theorem splitOnPred_head (p : Char → Bool) (s : Str) :
    (splitOnPred p s).headD [] = s.takeWhile (fun c => !p c) := by
  induction s with
  | nil => rfl
  | cons c rest ih =>
    unfold splitOnPred List.takeWhile
    by_cases hc : p c
    · simp [hc]
    · have hc' : p c = false := by simpa using hc
      simp only [hc', Bool.false_eq_true, if_false, Bool.not_false]
      cases h : splitOnPred p rest with
      | nil => exact absurd h (splitOnPred_ne_nil p rest)
      | cons x xs =>
        simp only [List.headD_cons]
        rw [h] at ih
        simp only [List.headD_cons] at ih
        simp [ih]

theorem splitOnPred_len2 (p : Char → Bool) (s : Str) (h : ∃ c ∈ s, p c = true) :
    2 ≤ (splitOnPred p s).length := by
  induction s with
  | nil => simp at h
  | cons c rest ih =>
    unfold splitOnPred
    by_cases hc : p c
    · have h1 := splitOnPred_ne_nil p rest
      have h2 : 1 ≤ (splitOnPred p rest).length := by
        cases hh : splitOnPred p rest with
        | nil => exact absurd hh h1
        | cons x xs => simp
      simp only [hc, if_true, List.length_cons]
      omega
    · have hc' : p c = false := by simpa using hc
      obtain ⟨d, hd, hpd⟩ := h
      rcases List.mem_cons.mp hd with rfl | hd2
      · rw [hpd] at hc'; cases hc'
      · have := ih ⟨d, hd2, hpd⟩
        simp only [hc', Bool.false_eq_true, if_false]
        cases hh : splitOnPred p rest with
        | nil => exact absurd hh (splitOnPred_ne_nil p rest)
        | cons x xs =>
          rw [hh] at this
          simp only [List.length_cons] at this ⊢
          omega

theorem find_exact_none (cfg : ParserConfig) (l : List Str)
    (h : ∀ t ∈ l, lookupA cfg.street_type_map t = none) (i : Nat) :
    find_exact cfg i l = none := by
  induction l generalizing i with
  | nil => rfl
  | cons t rest ih =>
    unfold find_exact
    rw [ih (fun x hx => h x (List.mem_cons_of_mem _ hx)) (i + 1),
      h t (List.mem_cons_self _ _)]

theorem parse_po_box_notes (cfg : ParserConfig) (a b c d : Str) :
    (parse_po_box cfg a b c d).parsing_notes = [S "PO_BOX"] := by
  unfold parse_po_box
  cases searchTag (S "BOX") a <;> rfl

theorem parse_rmb_notes (cfg : ParserConfig) (a b c d : Str) :
    (parse_rmb cfg a b c d).parsing_notes = [S "RMB"] := by
  unfold parse_rmb
  cases searchTag (S "RMB") a <;> rfl

theorem parse_po_box_flags (cfg : ParserConfig) (a b c d : Str) :
    (parse_po_box cfg a b c d).inconsistency_flags = [] := by
  unfold parse_po_box
  cases searchTag (S "BOX") a <;> rfl

theorem parse_rmb_flags (cfg : ParserConfig) (a b c d : Str) :
    (parse_rmb cfg a b c d).inconsistency_flags = [] := by
  unfold parse_rmb
  cases searchTag (S "RMB") a <;> rfl

theorem ite_nil_or (C : Prop) [Decidable C] (l : List Str) :
    (if C then l else []) = [] ∨ (if C then l else []) = l := by
  split
  · right; rfl
  · left; rfl

theorem parse_street_notes (cfg : ParserConfig) (s : Str) :
    (parse_street_address cfg s).parsing_notes = [] ∨
    (parse_street_address cfg s).parsing_notes = [S "UNABLE_TO_PARSE"] := by
  unfold parse_street_address
  split
  · left; rfl
  · dsimp only
    exact ite_nil_or _ _

theorem check_consistency_flags_irrel (cfg : ParserConfig) (c : AddressComponents)
    (x : List Str) :
    check_consistency cfg { c with inconsistency_flags := x } = check_consistency cfg c := rfl

theorem penalty_notes_append (cfg : ScoringConfig) (notes : List Str) (n : Str) :
    penalty_for_parsing_notes cfg (notes ++ [n]) =
      penalty_for_parsing_notes cfg notes + note_penalty cfg n := by
  unfold penalty_for_parsing_notes
  rw [List.foldl_append]
  rfl

theorem penalty_flags_append (flags : List Str) (f : Str) :
    penalty_for_inconsistencies (flags ++ [f]) =
      penalty_for_inconsistencies flags + flag_penalty f := by
  unfold penalty_for_inconsistencies
  rw [List.foldl_append]
  rfl

theorem flag_penalty_nonneg (f : Str) : 0 ≤ flag_penalty f := by
  unfold flag_penalty
  split_ifs <;> omega

theorem note_penalty_nonneg (cfg : ScoringConfig) (h1 : 0 ≤ cfg.international_address)
    (h2 : 0 ≤ cfg.invalid_address) (h3 : 0 ≤ cfg.ambiguous_street_number)
    (h4 : 0 ≤ cfg.ambiguous_unit_number) (h5 : 0 ≤ cfg.conflicting_indicators) (n : Str) :
    0 ≤ note_penalty cfg n := by
  unfold note_penalty
  split_ifs <;> omega

theorem ml_step_mono (a b : Int) (ml : Option ℚ) (h : a ≤ b) : ml_step a ml ≤ ml_step b ml := by
  cases ml with
  | none => exact h
  | some m =>
    simp only [ml_step]
    unfold adjust_for_ml_confidence
    split_ifs <;> omega

/-- C1: for every combination of components, parsing notes, inconsistency
flags, G-NAF flags, G-NAF match score, corrections list and optional ML
confidence, the confidence score returned by `calculate_score` is an
integer with `0 ≤ score ≤ 100`. -/
theorem calculate_score_bounded (cfg : ScoringConfig) (components : AddressComponents)
    (parsing_notes inconsistency_flags gnaf_flags : List Str) (gnaf_match_score : ℚ)
    (corrections_applied : List Str) (ml_confidence : Option ℚ) :
    0 ≤ calculate_score cfg components parsing_notes inconsistency_flags gnaf_flags
        gnaf_match_score corrections_applied ml_confidence ∧
    calculate_score cfg components parsing_notes inconsistency_flags gnaf_flags
        gnaf_match_score corrections_applied ml_confidence ≤ 100 := by
  unfold calculate_score
  omega

/-- C7: with all configured parsing-note penalties nonnegative (the
per-flag penalties are nonnegative literals in the source), appending an
additional parsing note or an additional inconsistency flag never
increases the score returned by `calculate_score`, all other inputs held
fixed. -/
theorem score_monotone_in_flags_notes (cfg : ScoringConfig) (components : AddressComponents)
    (parsing_notes inconsistency_flags gnaf_flags : List Str) (gnaf_match_score : ℚ)
    (corrections_applied : List Str) (ml_confidence : Option ℚ) (n f : Str)
    (h1 : 0 ≤ cfg.international_address) (h2 : 0 ≤ cfg.invalid_address)
    (h3 : 0 ≤ cfg.ambiguous_street_number) (h4 : 0 ≤ cfg.ambiguous_unit_number)
    (h5 : 0 ≤ cfg.conflicting_indicators) :
    calculate_score cfg components (parsing_notes ++ [n]) inconsistency_flags gnaf_flags
        gnaf_match_score corrections_applied ml_confidence ≤
      calculate_score cfg components parsing_notes inconsistency_flags gnaf_flags
        gnaf_match_score corrections_applied ml_confidence ∧
    calculate_score cfg components parsing_notes (inconsistency_flags ++ [f]) gnaf_flags
        gnaf_match_score corrections_applied ml_confidence ≤
      calculate_score cfg components parsing_notes inconsistency_flags gnaf_flags
        gnaf_match_score corrections_applied ml_confidence := by
  have key : ∀ x y : Int, x ≤ y →
      max 0 (min 100 (ml_step x ml_confidence)) ≤ max 0 (min 100 (ml_step y ml_confidence)) := by
    intro x y hxy
    have := ml_step_mono x y ml_confidence hxy
    omega
  constructor
  · unfold calculate_score
    rw [penalty_notes_append]
    apply key
    have := note_penalty_nonneg cfg h1 h2 h3 h4 h5 n
    omega
  · unfold calculate_score
    rw [penalty_flags_append]
    apply key
    have := flag_penalty_nonneg f
    omega

/-- Witness for C7 at the default penalty table: appending
`UNABLE_TO_PARSE` (respectively `INVALID_POSTCODE_FORMAT`) to the notes
(flags) of an empty-component scoring call does not increase the score. -/
theorem score_monotone_in_flags_notes_inst :
    calculate_score default_scoring_config {} ([] ++ [S "UNABLE_TO_PARSE"]) [] [] 0 [] none ≤
      calculate_score default_scoring_config {} [] [] [] 0 [] none ∧
    calculate_score default_scoring_config {} [] ([] ++ [S "INVALID_POSTCODE_FORMAT"]) [] 0 []
        none ≤
      calculate_score default_scoring_config {} [] [] [] 0 [] none :=
  score_monotone_in_flags_notes default_scoring_config {} [] [] [] 0 [] none
    (S "UNABLE_TO_PARSE") (S "INVALID_POSTCODE_FORMAT") (by decide) (by decide) (by decide)
    (by decide) (by decide)

/-- C8: `is_valid_address` returns true exactly when the score is at least
30, suburb and state are nonempty, and either the street type is "PO Box"
or "RMB" or the street name is nonempty; in particular a PO Box record
with nonempty suburb and state and score at least 30 is valid regardless
of its street name. -/
theorem is_valid_address_characterization :
    (∀ (components : AddressComponents) (score : Int),
      is_valid_address components score = true ↔
        (30 ≤ score ∧ components.suburb ≠ [] ∧ components.state ≠ [] ∧
         (components.street_type = S "PO Box" ∨ components.street_type = S "RMB" ∨
          components.street_name ≠ []))) ∧
    (∀ (components : AddressComponents) (score : Int),
      components.street_type = S "PO Box" → components.suburb ≠ [] →
      components.state ≠ [] → 30 ≤ score → is_valid_address components score = true) := by
  have main : ∀ (components : AddressComponents) (score : Int),
      is_valid_address components score = true ↔
        (30 ≤ score ∧ components.suburb ≠ [] ∧ components.state ≠ [] ∧
         (components.street_type = S "PO Box" ∨ components.street_type = S "RMB" ∨
          components.street_name ≠ [])) := by
    intro c sc
    unfold is_valid_address
    split_ifs with hA hB hC hD <;> simp_all [List.isEmpty_iff] <;> tauto
  exact ⟨main, fun c sc ht hsub hst hsc =>
    (main c sc).mpr ⟨hsc, hsub, hst, Or.inl ht⟩⟩

/-- Witness for C8: a PO Box record with empty street name, nonempty
suburb and state, and score 88 is valid. -/
theorem is_valid_address_characterization_inst :
    is_valid_address { street_type := S "PO Box", suburb := S "Melbourne", state := S "VIC" }
      88 = true :=
  is_valid_address_characterization.2 _ 88 rfl (by decide) (by decide) (by decide)

/-- C10: the street extractor emits `UNABLE_TO_PARSE` and records the input
as unparsed text only for non-empty street text; on empty input it
returns all-empty components with no note and empty unparsed text. -/
theorem unable_to_parse_only_nonempty (cfg : ParserConfig) (s : Str) :
    parse_street_address cfg [] = ({} : StreetComponents) ∧
    (S "UNABLE_TO_PARSE" ∈ (parse_street_address cfg s).parsing_notes → s ≠ []) ∧
    ((parse_street_address cfg s).unparsed_components ≠ [] → s ≠ []) ∧
    (s ≠ [] → (parse_street_address cfg s).street_number = [] →
      (parse_street_address cfg s).street_name = [] →
      (parse_street_address cfg s).parsing_notes = [S "UNABLE_TO_PARSE"] ∧
      (parse_street_address cfg s).unparsed_components = s) := by
  refine ⟨rfl, ?_, ?_, ?_⟩
  · intro hm he
    subst he
    simp [parse_street_address] at hm
  · intro hu he
    subst he
    simp [parse_street_address] at hu
  · intro hne h1 h2
    have hE : s.isEmpty = false := by simpa using hne
    simp only [parse_street_address, hE, Bool.false_eq_true, if_false] at h1 h2 ⊢
    rw [if_pos ⟨List.isEmpty_iff.mpr h1, List.isEmpty_iff.mpr h2⟩,
      if_pos ⟨List.isEmpty_iff.mpr h1, List.isEmpty_iff.mpr h2⟩]
    exact ⟨rfl, rfl⟩

/-- Witness for C10: the street text "ST" is consumed whole as a street
type, leaving no number and no name, so the note and the unparsed record
are produced. -/
theorem unable_to_parse_only_nonempty_inst :
    (parse_street_address default_parser_config (S "ST")).parsing_notes =
        [S "UNABLE_TO_PARSE"] ∧
    (parse_street_address default_parser_config (S "ST")).unparsed_components = S "ST" :=
  (unable_to_parse_only_nonempty default_parser_config (S "ST")).2.2.2 (by decide) (by decide)
    (by decide)

/-- C4: whenever the street number produced by the scanning loop of
`_extract_numbers` contains the default range separator `-` with a purely
numeric part before it, `_extract_numbers` returns only that left (lower)
bound. -/
theorem range_takes_lower_bound (cfg : ParserConfig) (tokens : List Str)
    (hsep : cfg.street_number_range_separators = ['-'])
    (hin : '-' ∈ (scan_numbers cfg [] none 0 tokens).2.1)
    (hdig : isdigitStr ((scan_numbers cfg [] none 0 tokens).2.1.takeWhile
      (fun c => !(c == '-'))) = true) :
    (extract_numbers cfg tokens).2.1 =
      (scan_numbers cfg [] none 0 tokens).2.1.takeWhile (fun c => !(c == '-')) := by
  have hne : (scan_numbers cfg [] none 0 tokens).2.1 ≠ [] := by
    intro h
    rw [h] at hin
    exact absurd hin (List.not_mem_nil _)
  unfold extract_numbers
  dsimp only
  rw [if_pos ⟨fun hc => hne (List.isEmpty_iff.mp hc), hin⟩]
  dsimp only
  unfold handle_range
  rw [hsep]
  unfold handle_range_go
  rw [if_pos hin,
    if_pos ⟨splitOnPred_len2 _ _ ⟨'-', hin, by decide⟩,
      by rw [splitOnPred_head]; exact hdig⟩,
    splitOnPred_head]

/-- Witness for C4: with alpha-suffix stripping off, the token "5/10-12"
leaves the scan with street number "10-12", and the extractor reports
"10". -/
theorem range_takes_lower_bound_inst :
    '-' ∈ (scan_numbers nostrip_config [] none 0 [S "5/10-12", S "HIGH"]).2.1 ∧
    (extract_numbers nostrip_config [S "5/10-12", S "HIGH"]).2.1 = S "10" := by
  refine ⟨by decide, ?_⟩
  have h := range_takes_lower_bound nostrip_config [S "5/10-12", S "HIGH"] (by decide)
    (by decide) (by decide)
  rw [h]
  decide

theorem normalize_postcode_shape (s : Str) :
    normalize_postcode s = [] ∨
    ((normalize_postcode s).length = 4 ∧ ∀ c ∈ normalize_postcode s, digitCh c = true) := by
  unfold normalize_postcode
  by_cases hs : s.isEmpty = true
  · left
    rw [if_pos hs]
  · right
    rw [if_neg hs]
    dsimp only
    have hd : ∀ c ∈ s.filter digitCh, digitCh c = true := fun c hc =>
      (List.mem_filter.mp hc).2
    by_cases h4 : (s.filter digitCh).length = 4
    · rw [if_pos h4]
      exact ⟨h4, hd⟩
    · rw [if_neg h4]
      by_cases hlt : (s.filter digitCh).length < 4
      · rw [if_pos hlt]
        constructor
        · simp only [zfill, List.length_append, List.length_replicate]
          omega
        · intro c hc
          rcases List.mem_append.mp hc with hr | hm
          · rw [List.eq_of_mem_replicate hr]
            decide
          · exact hd c hm
      · rw [if_neg hlt]
        constructor
        · rw [List.length_take]
          omega
        · intro c hc
          exact hd c (List.take_subset _ _ hc)

theorem normalize_postcode_fixed (t : Str) (hl : t.length = 4)
    (hd : ∀ c ∈ t, digitCh c = true) : normalize_postcode t = t := by
  have hne : t ≠ [] := by
    intro h
    subst h
    simp at hl
  have hE : t.isEmpty = false := by simpa using hne
  unfold normalize_postcode
  simp only [hE, Bool.false_eq_true, if_false]
  rw [List.filter_eq_self.mpr hd]
  rw [if_pos hl]

/-- C9: the suburb, state and postcode normalizers are idempotent, for any
configuration whose misspelling corrections do not themselves re-match a
misspelling key after title-casing and whose state map is closed on its
own values (both true of the default Australian tables). -/
theorem normalizers_idempotent (cfg : ParserConfig)
    (hsub : ∀ p ∈ cfg.suburb_misspellings,
      lookupA cfg.suburb_misspellings (strUpper p.2) = none)
    (hst : ∀ p ∈ cfg.state_map,
      lookupA cfg.state_map (strUpper p.2) = some p.2 ∨
      lookupA cfg.state_map (strUpper p.2) = none) :
    (∀ s, normalize_suburb cfg (normalize_suburb cfg s) = normalize_suburb cfg s) ∧
    (∀ s, normalize_state cfg (normalize_state cfg s) = normalize_state cfg s) ∧
    (∀ s, normalize_postcode (normalize_postcode s) = normalize_postcode s) := by
  refine ⟨?_, ?_, ?_⟩
  · intro s
    by_cases hs : s = []
    · subst hs
      rfl
    · have hsE : s.isEmpty = false := by simpa using hs
      cases hm : lookupA cfg.suburb_misspellings (strUpper s) with
      | some corr =>
        have hout : normalize_suburb cfg s = titleStr corr := by
          simp only [normalize_suburb, hsE, Bool.false_eq_true, if_false, hm]
        rw [hout]
        by_cases hc : corr = []
        · subst hc
          rfl
        · have hcE : (titleStr corr).isEmpty = false := by
            simpa using fun h => hc ((titleStr_eq_nil_iff corr).mp h)
          have hl : lookupA cfg.suburb_misspellings (strUpper (titleStr corr)) = none := by
            rw [strUpper_titleStr]
            exact hsub (strUpper s, corr) (lookupA_mem _ _ _ hm)
          simp only [normalize_suburb, hcE, Bool.false_eq_true, if_false, hl, titleStr_idem]
      | none =>
        have hout : normalize_suburb cfg s = titleStr s := by
          simp only [normalize_suburb, hsE, Bool.false_eq_true, if_false, hm]
        rw [hout]
        have hsnE : (titleStr s).isEmpty = false := by
          simpa using fun h => hs ((titleStr_eq_nil_iff s).mp h)
        have hl : lookupA cfg.suburb_misspellings (strUpper (titleStr s)) = none := by
          rw [strUpper_titleStr]
          exact hm
        simp only [normalize_suburb, hsnE, Bool.false_eq_true, if_false, hl, titleStr_idem]
  · intro s
    by_cases hs : s = []
    · subst hs
      rfl
    · have hsE : s.isEmpty = false := by simpa using hs
      cases hm : lookupA cfg.state_map (strUpper s) with
      | some v =>
        have hout : normalize_state cfg s = v := by
          simp only [normalize_state, hsE, Bool.false_eq_true, if_false, hm]
        rw [hout]
        by_cases hv : v = []
        · subst hv
          rfl
        · have hvE : v.isEmpty = false := by simpa using hv
          rcases hst (strUpper s, v) (lookupA_mem _ _ _ hm) with h | h
          · simp only [normalize_state, hvE, Bool.false_eq_true, if_false, h]
          · simp only [normalize_state, hvE, Bool.false_eq_true, if_false, h]
      | none =>
        have hout : normalize_state cfg s = s := by
          simp only [normalize_state, hsE, Bool.false_eq_true, if_false, hm]
        rw [hout]
        exact hout
  · intro s
    rcases normalize_postcode_shape s with h | ⟨hl, hd⟩
    · rw [h]
      rfl
    · exact normalize_postcode_fixed _ hl hd

/-- Witness for C9 at the default tables: normalizing the already
normalized forms of "sidney" / "new south wales" / "999" changes
nothing. -/
theorem normalizers_idempotent_inst :
    normalize_suburb default_parser_config
        (normalize_suburb default_parser_config (S "sidney")) =
      normalize_suburb default_parser_config (S "sidney") ∧
    normalize_state default_parser_config
        (normalize_state default_parser_config (S "new south wales")) =
      normalize_state default_parser_config (S "new south wales") ∧
    normalize_postcode (normalize_postcode (S "999")) = normalize_postcode (S "999") := by
  have h := normalizers_idempotent default_parser_config (by decide) (by decide)
  exact ⟨h.1 (S "sidney"), h.2.1 (S "new south wales"), h.2.2 (S "999")⟩

theorem try_fuzzy_at_some (cfg : ParserConfig) (tokens : List Str) (i : Nat) (lbl : Str)
    (j : Nat) (h : try_fuzzy_at cfg tokens i = some (lbl, j)) :
    j = i ∧ ∃ t sc, tokens.get? i = some t ∧
      extract_one cfg.fuzzy_score t cfg.canonical_street_types = some (lbl, sc) ∧
      cfg.fuzzy_min_score ≤ sc := by
  unfold try_fuzzy_at at h
  cases hg : tokens.get? i with
  | none =>
    rw [hg] at h
    cases h
  | some t =>
    rw [hg] at h
    dsimp only at h
    cases he : extract_one cfg.fuzzy_score t cfg.canonical_street_types with
    | none =>
      rw [he] at h
      cases h
    | some p =>
      obtain ⟨l2, sc⟩ := p
      rw [he] at h
      dsimp only at h
      by_cases hmin : cfg.fuzzy_min_score ≤ sc
      · rw [if_pos hmin] at h
        injection h with h2
        injection h2 with ha hb
        subst ha
        subst hb
        exact ⟨rfl, t, sc, rfl, he, hmin⟩
      · rw [if_neg hmin] at h
        cases h

theorem try_fuzzy_at_none (cfg : ParserConfig) (tokens : List Str) (i : Nat) (t : Str)
    (lbl2 : Str) (sc2 : ℚ) (hnone : try_fuzzy_at cfg tokens i = none)
    (hg : tokens.get? i = some t)
    (he : extract_one cfg.fuzzy_score t cfg.canonical_street_types = some (lbl2, sc2)) :
    sc2 < cfg.fuzzy_min_score := by
  unfold try_fuzzy_at at hnone
  rw [hg] at hnone
  dsimp only at hnone
  rw [he] at hnone
  dsimp only at hnone
  by_cases hmin : cfg.fuzzy_min_score ≤ sc2
  · rw [if_pos hmin] at hnone
    cases hnone
  · exact lt_of_not_le hmin

/-- C6: when no token of the whole sequence is an exact hit in the
street-type map, the fuzzy retry of `_extract_street_type` examines only
the last two token positions, last position first, and accepts a
candidate only when its best similarity score meets the configured
minimum. -/
theorem fuzzy_scan_last_two (cfg : ParserConfig) (tokens : List Str)
    (hexact : ∀ t ∈ tokens, lookupA cfg.street_type_map t = none) :
    (cfg.fuzzy_enabled = false → extract_street_type cfg tokens = ([], none)) ∧
    (∀ lbl i, extract_street_type cfg tokens = (lbl, some i) →
      (i + 1 = tokens.length ∨ (2 ≤ tokens.length ∧ i + 2 = tokens.length)) ∧
      ∃ t sc, tokens.get? i = some t ∧
        extract_one cfg.fuzzy_score t cfg.canonical_street_types = some (lbl, sc) ∧
        cfg.fuzzy_min_score ≤ sc) ∧
    (∀ lbl i, extract_street_type cfg tokens = (lbl, some i) → i + 2 = tokens.length →
      ∀ tl lbl2 sc2, tokens.get? (i + 1) = some tl →
        extract_one cfg.fuzzy_score tl cfg.canonical_street_types = some (lbl2, sc2) →
        sc2 < cfg.fuzzy_min_score) := by
  have hfe : find_exact cfg 0 tokens = none := find_exact_none cfg tokens hexact 0
  by_cases hen : cfg.fuzzy_enabled = true
  · have hval : extract_street_type cfg tokens =
        (match find_fuzzy cfg tokens with
         | some (lbl, i) => (lbl, some i)
         | none => ([], none)) := by
      unfold extract_street_type
      rw [hfe, if_pos hen]
    by_cases h0 : tokens.length = 0
    · have hff : find_fuzzy cfg tokens = none := by
        unfold find_fuzzy
        rw [if_pos h0]
      rw [hff] at hval
      refine ⟨fun hf => (by rw [hen] at hf; cases hf), ?_, ?_⟩
      · intro lbl i h
        rw [hval] at h
        simp at h
      · intro lbl i h
        rw [hval] at h
        simp at h
    · cases h1 : try_fuzzy_at cfg tokens (tokens.length - 1) with
      | some r =>
        obtain ⟨l1, i1⟩ := r
        have hff : find_fuzzy cfg tokens = some (l1, i1) := by
          unfold find_fuzzy
          rw [if_neg h0, h1]
        rw [hff] at hval
        obtain ⟨hi1, hex⟩ := try_fuzzy_at_some cfg tokens _ l1 i1 h1
        refine ⟨fun hf => (by rw [hen] at hf; cases hf), ?_, ?_⟩
        · intro lbl i h
          rw [hval] at h
          injection h with ha hb
          injection hb with hb
          subst ha
          subst hb
          subst hi1
          exact ⟨Or.inl (by omega), hex⟩
        · intro lbl i h hlen2
          rw [hval] at h
          injection h with ha hb
          injection hb with hb
          subst hb
          subst hi1
          omega
      | none =>
        by_cases h2 : 2 ≤ tokens.length
        · cases h3 : try_fuzzy_at cfg tokens (tokens.length - 2) with
          | some r =>
            obtain ⟨l2, i2⟩ := r
            have hff : find_fuzzy cfg tokens = some (l2, i2) := by
              unfold find_fuzzy
              rw [if_neg h0, h1, if_pos h2, h3]
            rw [hff] at hval
            obtain ⟨hi2, hex⟩ := try_fuzzy_at_some cfg tokens _ l2 i2 h3
            refine ⟨fun hf => (by rw [hen] at hf; cases hf), ?_, ?_⟩
            · intro lbl i h
              rw [hval] at h
              injection h with ha hb
              injection hb with hb
              subst ha
              subst hb
              subst hi2
              exact ⟨Or.inr ⟨h2, by omega⟩, hex⟩
            · intro lbl i h hlen2 tl lbl2 sc2 hg he
              rw [hval] at h
              injection h with ha hb
              injection hb with hb
              have hidx : i + 1 = tokens.length - 1 := by omega
              rw [hidx] at hg
              exact try_fuzzy_at_none cfg tokens _ tl lbl2 sc2 h1 hg he
          | none =>
            have hff : find_fuzzy cfg tokens = none := by
              unfold find_fuzzy
              rw [if_neg h0, h1, if_pos h2, h3]
            rw [hff] at hval
            refine ⟨fun hf => (by rw [hen] at hf; cases hf), ?_, ?_⟩
            · intro lbl i h
              rw [hval] at h
              simp at h
            · intro lbl i h
              rw [hval] at h
              simp at h
        · have hff : find_fuzzy cfg tokens = none := by
            unfold find_fuzzy
            rw [if_neg h0, h1, if_neg h2]
          rw [hff] at hval
          refine ⟨fun hf => (by rw [hen] at hf; cases hf), ?_, ?_⟩
          · intro lbl i h
            rw [hval] at h
            simp at h
          · intro lbl i h
            rw [hval] at h
            simp at h
  · have hen' : cfg.fuzzy_enabled = false := by simpa using hen
    have hval : extract_street_type cfg tokens = ([], none) := by
      unfold extract_street_type
      rw [hfe, if_neg (by simp [hen'])]
    refine ⟨fun _ => hval, ?_, ?_⟩
    · intro lbl i h
      rw [hval] at h
      simp at h
    · intro lbl i h
      rw [hval] at h
      simp at h

/-- Witness for C6: with an empty exact map, two tokens and a constant
similarity of 90 against minimum 85, the retry accepts at the last
position. -/
theorem fuzzy_scan_last_two_inst :
    extract_street_type fuzzy_probe_config [S "A", S "B"] = (S "STREET", some 1) ∧
    (1 + 1 = ([S "A", S "B"] : List Str).length ∨
      (2 ≤ ([S "A", S "B"] : List Str).length ∧
        1 + 2 = ([S "A", S "B"] : List Str).length)) := by
  refine ⟨by decide, ?_⟩
  exact ((fuzzy_scan_last_two fuzzy_probe_config [S "A", S "B"] (by decide)).2.1
    (S "STREET") 1 (by decide)).1

/-- C2: `parse_address` emits at most one of the special-form tags
`INTERNATIONAL_ADDRESS` / `PO_BOX` / `RMB`, with International checked
before PO Box before RMB before the standard path, and on the
International outcome the result is exactly the all-empty record carrying
only the `INTERNATIONAL_ADDRESS` note. -/
theorem special_form_mutually_exclusive (cfg : ParserConfig)
    (street suburb state postcode : Str) :
    ((parse_address cfg street suburb state postcode).parsing_notes.filter
        (fun n => decide (n ∈ special_form_tags))).length ≤ 1 ∧
    (is_international cfg (clean_text street) (clean_text suburb) (clean_text state)
        (clean_text postcode) = true →
      parse_address cfg street suburb state postcode =
        { parsing_notes := [S "INTERNATIONAL_ADDRESS"] }) ∧
    (is_international cfg (clean_text street) (clean_text suburb) (clean_text state)
        (clean_text postcode) = false → is_po_box cfg (clean_text street) = true →
      S "PO_BOX" ∈ (parse_address cfg street suburb state postcode).parsing_notes ∧
      S "INTERNATIONAL_ADDRESS" ∉
        (parse_address cfg street suburb state postcode).parsing_notes ∧
      S "RMB" ∉ (parse_address cfg street suburb state postcode).parsing_notes) ∧
    (is_international cfg (clean_text street) (clean_text suburb) (clean_text state)
        (clean_text postcode) = false → is_po_box cfg (clean_text street) = false →
      is_rmb cfg (clean_text street) = true →
      S "RMB" ∈ (parse_address cfg street suburb state postcode).parsing_notes ∧
      S "INTERNATIONAL_ADDRESS" ∉
        (parse_address cfg street suburb state postcode).parsing_notes ∧
      S "PO_BOX" ∉ (parse_address cfg street suburb state postcode).parsing_notes) ∧
    (is_international cfg (clean_text street) (clean_text suburb) (clean_text state)
        (clean_text postcode) = false → is_po_box cfg (clean_text street) = false →
      is_rmb cfg (clean_text street) = false →
      ∀ t ∈ special_form_tags,
        t ∉ (parse_address cfg street suburb state postcode).parsing_notes) := by
  by_cases hI : is_international cfg (clean_text street) (clean_text suburb)
      (clean_text state) (clean_text postcode) = true
  · have hval : parse_address cfg street suburb state postcode =
        { parsing_notes := [S "INTERNATIONAL_ADDRESS"] } := by
      unfold parse_address
      rw [if_pos hI]
    refine ⟨?_, fun _ => hval, ?_, ?_, ?_⟩
    · rw [hval]
      decide
    · intro h
      rw [hI] at h
      cases h
    · intro h
      rw [hI] at h
      cases h
    · intro h
      rw [hI] at h
      cases h
  · by_cases hP : is_po_box cfg (clean_text street) = true
    · have hnotes : (parse_address cfg street suburb state postcode).parsing_notes =
          [S "PO_BOX"] := by
        unfold parse_address
        rw [if_neg hI, if_pos hP]
        exact parse_po_box_notes cfg _ _ _ _
      refine ⟨?_, fun h => absurd h hI, fun _ _ => ?_, fun _ hP2 _ => ?_, fun _ hP2 _ => ?_⟩
      · rw [hnotes]
        decide
      · rw [hnotes]
        exact ⟨by decide, by decide, by decide⟩
      · rw [hP] at hP2
        cases hP2
      · rw [hP] at hP2
        cases hP2
    · by_cases hR : is_rmb cfg (clean_text street) = true
      · have hnotes : (parse_address cfg street suburb state postcode).parsing_notes =
            [S "RMB"] := by
          unfold parse_address
          rw [if_neg hI, if_neg hP, if_pos hR]
          exact parse_rmb_notes cfg _ _ _ _
        refine ⟨?_, fun h => absurd h hI, fun _ hP2 => absurd hP2 hP, fun _ _ _ => ?_,
          fun _ _ hR2 => ?_⟩
        · rw [hnotes]
          decide
        · rw [hnotes]
          exact ⟨by decide, by decide, by decide⟩
        · rw [hR] at hR2
          cases hR2
      · have hnotes : (parse_address cfg street suburb state postcode).parsing_notes =
            (parse_street_address cfg (clean_text street)).parsing_notes := by
          unfold parse_address
          rw [if_neg hI, if_neg hP, if_neg hR]
        refine ⟨?_, fun h => absurd h hI, fun _ hP2 => absurd hP2 hP,
          fun _ _ hR2 => absurd hR2 hR, fun _ _ _ => ?_⟩
        · rcases parse_street_notes cfg (clean_text street) with h | h <;>
            rw [hnotes, h] <;> decide
        · intro t ht hmem
          rw [hnotes] at hmem
          rcases parse_street_notes cfg (clean_text street) with h | h
          · rw [h] at hmem
            exact absurd hmem (List.not_mem_nil t)
          · rw [h, List.mem_singleton] at hmem
            subst hmem
            exact absurd ht (by decide)

/-- Witness for C2: a German address is classified International and
yields the all-empty record with the single note. -/
theorem special_form_mutually_exclusive_inst :
    is_international default_parser_config (clean_text (S "1 Uferweg")) (clean_text (S "Berlin"))
      (clean_text (S "Germany")) (clean_text (S "10115")) = true ∧
    parse_address default_parser_config (S "1 Uferweg") (S "Berlin") (S "Germany")
        (S "10115") =
      { parsing_notes := [S "INTERNATIONAL_ADDRESS"] } :=
  ⟨by decide,
    (special_form_mutually_exclusive default_parser_config (S "1 Uferweg") (S "Berlin")
      (S "Germany") (S "10115")).2.1 (by decide)⟩

/-- C5 (amended): inconsistency flags are computed, after normalization,
only on the Standard path; the International, PO-Box and RMB paths all
return an empty inconsistency-flag list. -/
theorem consistency_flags_paths (cfg : ParserConfig) (street suburb state postcode : Str) :
    (is_international cfg (clean_text street) (clean_text suburb) (clean_text state)
        (clean_text postcode) = true →
      (parse_address cfg street suburb state postcode).inconsistency_flags = []) ∧
    (is_international cfg (clean_text street) (clean_text suburb) (clean_text state)
        (clean_text postcode) = false → is_po_box cfg (clean_text street) = true →
      (parse_address cfg street suburb state postcode).inconsistency_flags = []) ∧
    (is_international cfg (clean_text street) (clean_text suburb) (clean_text state)
        (clean_text postcode) = false → is_po_box cfg (clean_text street) = false →
      is_rmb cfg (clean_text street) = true →
      (parse_address cfg street suburb state postcode).inconsistency_flags = []) ∧
    (is_international cfg (clean_text street) (clean_text suburb) (clean_text state)
        (clean_text postcode) = false → is_po_box cfg (clean_text street) = false →
      is_rmb cfg (clean_text street) = false →
      (parse_address cfg street suburb state postcode).inconsistency_flags =
        check_consistency cfg (parse_address cfg street suburb state postcode)) := by
  by_cases hI : is_international cfg (clean_text street) (clean_text suburb)
      (clean_text state) (clean_text postcode) = true
  · refine ⟨fun _ => ?_, fun h => absurd hI (by rw [h]; simp), fun h => absurd hI (by rw [h]; simp),
      fun h => absurd hI (by rw [h]; simp)⟩
    unfold parse_address
    rw [if_pos hI]
  · by_cases hP : is_po_box cfg (clean_text street) = true
    · refine ⟨fun h => absurd h hI, fun _ _ => ?_, fun _ hP2 _ => ?_, fun _ hP2 _ => ?_⟩
      · unfold parse_address
        rw [if_neg hI, if_pos hP]
        exact parse_po_box_flags cfg _ _ _ _
      · rw [hP] at hP2
        cases hP2
      · rw [hP] at hP2
        cases hP2
    · by_cases hR : is_rmb cfg (clean_text street) = true
      · refine ⟨fun h => absurd h hI, fun _ hP2 => absurd hP2 hP, fun _ _ _ => ?_,
          fun _ _ hR2 => ?_⟩
        · unfold parse_address
          rw [if_neg hI, if_neg hP, if_pos hR]
          exact parse_rmb_flags cfg _ _ _ _
        · rw [hR] at hR2
          cases hR2
      · refine ⟨fun h => absurd h hI, fun _ hP2 => absurd hP2 hP,
          fun _ _ hR2 => absurd hR2 hR, fun _ _ _ => ?_⟩
        unfold parse_address
        rw [if_neg hI, if_neg hP, if_neg hR]
        rfl

/-- Witness for C5 (amended), Standard path: a Sydney street address with
the out-of-range postcode 9999 carries exactly the consistency-checker
output, here the postcode/state mismatch flag. -/
theorem consistency_flags_paths_inst :
    (parse_address default_parser_config (S "123 Main Street") (S "Sydney") (S "NSW")
        (S "9999")).inconsistency_flags =
      check_consistency default_parser_config
        (parse_address default_parser_config (S "123 Main Street") (S "Sydney") (S "NSW")
          (S "9999")) ∧
    (parse_address default_parser_config (S "123 Main Street") (S "Sydney") (S "NSW")
        (S "9999")).inconsistency_flags = [S "POSTCODE_STATE_MISMATCH"] :=
  ⟨(consistency_flags_paths default_parser_config (S "123 Main Street") (S "Sydney") (S "NSW")
      (S "9999")).2.2.2 (by decide) (by decide) (by decide),
    by decide⟩

/-- Counterexample to C3: with "Unit" configured as a unit prefix, parsing
"Unit 5/12 High St" does not produce street number "12" — the unit-prefix
branch consumes the token "5/12" wholesale as the unit number. -/
theorem unit_slash_street_number_lost :
    (parse_address default_parser_config (S "Unit 5/12 High St") [] [] []).street_number ≠
      S "12" := by
  decide

/-- C3 (amended): parsing "Unit 5/12 High St" with the default
configuration yields unit number "5" (the leading digits of the token
consumed after the unit prefix), an empty street number, street name
"High" and street type "Street". -/
theorem unit_slash_parse_result :
    parse_address default_parser_config (S "Unit 5/12 High St") [] [] [] =
      { unit_number := S "5", street_name := S "High", street_type := S "Street" } := by
  decide

/-- Counterexample to C5: the PO Box address "PO Box 456", Melbourne VIC
9999 has a postcode outside VIC's configured ranges — the consistency
checker itself would flag it — yet its parsed result carries no
inconsistency flags, because `_parse_po_box` never runs the checker. -/
theorem po_box_skips_consistency :
    is_po_box default_parser_config (clean_text (S "PO Box 456")) = true ∧
    check_consistency default_parser_config
        (parse_address default_parser_config (S "PO Box 456") (S "Melbourne") (S "VIC")
          (S "9999")) =
      [S "POSTCODE_STATE_MISMATCH"] ∧
    (parse_address default_parser_config (S "PO Box 456") (S "Melbourne") (S "VIC")
        (S "9999")).inconsistency_flags = [] := by
  exact ⟨by decide, by decide, by decide⟩
